import Mathlib

/-!
Verification of the live-serving layer of the frigate camera monitoring
platform (`frigate/http.py`): the `/events` query engine, the image-serving
endpoints (`best.jpg`, `latest.jpg`), the MJPEG streaming generator and the
`/stats` aggregator are shallowly embedded as executable Lean functions and
their specified properties are proved or refuted.

Conventions of the embedding:
- Python integers are `Int`/`Nat`; `int(a/b)` on nonnegative operands is
  integer division truncating toward zero (`Int.tdiv`).
- Query parameters arrive as `Option String` (absent vs `value`); Flask's
  `request.args.get(name, type=int)` silently yields `none` when the value
  does not parse, while a bare `int(...)` conversion raises `ValueError`,
  modelled by an `Except` result.
- Python truthiness of the filter guards (`if camera:` etc.) is modelled
  explicitly: empty strings and the integer 0 are falsy.
- Frames are modelled by their geometry plus a blankness flag; `cv2.resize`
  and colour conversion are modelled as the dimension transforms they
  perform.  Shared mutable state read by an endpoint is passed in as an
  explicit argument.
-/

deriving instance DecidableEq for Except

namespace Frigate

/-- Accumulator-style parse of a nonempty run of decimal digits. -/
def decDigitsAux : List Char → ℕ → Option ℕ
  | [], acc => some acc
  | c :: cs, acc =>
      if c.isDigit then decDigitsAux cs (acc * 10 + (c.toNat - '0'.toNat)) else none

/-- Parse a nonempty list of decimal digits into a natural number. -/
def decDigits? (cs : List Char) : Option ℕ :=
  match cs with
  | [] => none
  | _ :: _ => decDigitsAux cs 0

/-- Integer parse of a string: an optional sign followed by decimal digits.
Models Python's `int(str)` conversion (whose additional tolerance for
surrounding whitespace and underscore separators is not exercised here) and
SQLite's text-to-integer conversion applied to a `LIMIT` parameter. -/
def parseInt? (s : String) : Option Int :=
  match s.data with
  | '-' :: rest => (decDigits? rest).map (fun n => -(n : Int))
  | '+' :: rest => (decDigits? rest).map (fun n => (n : Int))
  | cs => (decDigits? cs).map (fun n => (n : Int))

/-- SQLite `GLOB` pattern matching over characters: `*` matches any sequence,
`?` matches any single character, anything else matches itself.  This is the
semantics of peewee's `%` operator on a SQLite database, which is how the
`/events` zone filter `Event.zones.cast('text') % '*"zone"*'` is executed
(character classes `[...]`, which no pattern built by the code contains,
are not modelled). -/
def globMatch : List Char → List Char → Bool
  | [], t => t.isEmpty
  | c :: p, t =>
      if c = '*' then t.tails.any (fun s => globMatch p s)
      else
        match t with
        | [] => false
        | d :: t' => if c = '?' then globMatch p t' else (d = c) && globMatch p t'

/-- A zone name as it appears inside the serialized zone list: wrapped in
double quotes. -/
def quoteName (n : List Char) : List Char := '"' :: n ++ ['"']

/-- The comma-separated body of the JSON serialization of a zone list. -/
def innerSer : List (List Char) → List Char
  | [] => []
  | [n] => quoteName n
  | n :: rest => quoteName n ++ (',' :: ' ' :: innerSer rest)

/-- Modelled from the spec: the `Event.zones` column (declared in the model
layer, which is outside this slice) persists the event's zone set as its
JSON serialization, a bracketed comma-separated list of the double-quoted
zone names; the zone filter GLOB runs against this text (`cast('text')`). -/
def serializeZones (zs : List String) : List Char :=
  '[' :: innerSer (zs.map String.data) ++ [']']

/-- The GLOB pattern the `/events` zone filter builds from a queried zone
name: the Python f-string `*"{zone}"*`. -/
def zonePattern (z : String) : List Char :=
  '*' :: (quoteName z.data ++ ['*'])

/-- An event record, modelled from the spec: identifier, camera name, label,
zone set, start/end timestamps (the thumbnail plays no role in the claims
considered here). -/
structure Event where
  id : String
  camera : String
  label : String
  zones : List String
  start_time : Int
  end_time : Int
deriving DecidableEq

/-- The raw query string of an `/events` request: each recognized parameter
is either absent or a string. -/
structure RawArgs where
  limit : Option String := none
  camera : Option String := none
  label : Option String := none
  zone : Option String := none
  after : Option String := none
  before : Option String := none
deriving DecidableEq

/-- Flask's `request.args.get(name, type=int)`: an absent value stays absent
and an unparsable value is silently replaced by the (absent) default. -/
def argsGetInt (v : Option String) : Option Int :=
  match v with
  | none => none
  | some s => parseInt? s

/-- The conjunction of the filter clauses the `/events` handler appends: a
clause is only appended when the parameter is truthy (nonempty string,
nonzero integer), and all appended clauses are ANDed.  Clause order follows
the source: camera, label, zone, after, before. -/
def eventMatches (args : RawArgs) (e : Event) : Bool :=
  (match args.camera with
   | some c => if c = "" then true else e.camera = c
   | none => true) &&
  (match args.label with
   | some l => if l = "" then true else e.label = l
   | none => true) &&
  (match args.zone with
   | some z => if z = "" then true else globMatch (zonePattern z) (serializeZones e.zones)
   | none => true) &&
  (match argsGetInt args.after with
   | some a => if a = 0 then true else a ≤ e.start_time
   | none => true) &&
  (match argsGetInt args.before with
   | some b => if b = 0 then true else e.start_time ≤ b
   | none => true)

/-- The descending start-time comparison `order_by(Event.start_time.desc())`
sorts by. -/
def eventLe (a b : Event) : Bool := decide (b.start_time ≤ a.start_time)

/-- `order_by(Event.start_time.desc())`: sort by start time, descending. -/
def sortByStartTimeDesc (l : List Event) : List Event :=
  l.mergeSort eventLe

/-- Failure of the database layer while running the query. -/
inductive DbError
  | datatypeMismatch
deriving DecidableEq

/-- The `limit` parameter: `request.args.get('limit', 100)` leaves a supplied
value as text, which SQLite's `LIMIT` then converts to an integer, raising a
datatype mismatch when it cannot. -/
def resolveLimit : Option String → Except DbError Int
  | none => .ok 100
  | some s =>
      match parseInt? s with
      | some n => .ok n
      | none => .error .datatypeMismatch

/-- SQLite `LIMIT n`: a negative limit means no limit. -/
def applyLimit (n : Int) (l : List Event) : List Event :=
  if n < 0 then l else l.take n.toNat

/-- The `/events` handler: build the ANDed clause list, select matching
events ordered by start time descending, and apply the limit. -/
def events (args : RawArgs) (db : List Event) : Except DbError (List Event) :=
  match resolveLimit args.limit with
  | .error e => .error e
  | .ok n => .ok (applyLimit n (sortByStartTimeDesc (db.filter (fun e => eventMatches args e))))

/-- A decoded frame, modelled by its geometry: pixel height, pixel width,
and whether every pixel is zero (a blank image).  The colour payload plays
no role in the claims considered here. -/
structure Frame where
  h : ℕ
  w : ℕ
  blank : Bool
deriving DecidableEq

/-- `np.zeros((h, w, 3), np.uint8)`: a blank frame of the given geometry. -/
def npZeros (h w : ℕ) : Frame := ⟨h, w, true⟩

/-- `cv2.cvtColor(f, cv2.COLOR_YUV2BGR_I420)`: an I420 buffer of height
`3h/2` and width `w` decodes to a BGR frame of height `h` and width `w`;
zero pixels stay zero. -/
def cvtColorI420 (f : Frame) : Frame := ⟨f.h * 2 / 3, f.w, f.blank⟩

/-- Length of the numpy slice `a[i:j]` over an axis of length `len`
(indices clamp to the axis, an empty range yields length 0). -/
def npSliceLen (len i j : ℕ) : ℕ := min j len - min i len

/-- `frame[y1:y2, x1:x2]`: rectangular crop by numpy slicing. -/
def npCrop (f : Frame) (x1 y1 x2 y2 : ℕ) : Frame :=
  ⟨npSliceLen f.h y1 y2, npSliceLen f.w x1 x2, f.blank⟩

/-- `int(height * w / h)`: the derived width of the aspect-preserving
resize, truncated toward zero (Python `int()` of the float quotient;
callers guard `h = 0`, which in Python raises before this point). -/
def widthFor (height : Int) (w h : ℕ) : Int := Int.tdiv (height * w) h

/-- `cv2.resize(f, dsize=(w, h))`, modelled as the dimension transform it
performs; zero pixels stay zero under interpolation. -/
def cvResize (f : Frame) (w h : Int) : Frame := ⟨h.toNat, w.toNat, f.blank⟩

/-- A Python-level exception escaping the handler (Flask turns it into a
500 response, a server-side fault). -/
inductive PyErr
  | valueError
  | zeroDivision
deriving DecidableEq

/-- An HTTP response produced by a camera-scoped route: an encoded image, a
plain-text 404, or the multipart streaming response (carrying the fps and
height the generator was started with). -/
inductive Response
  | ok (img : Frame)
  | notFound (msg : String)
  | stream (fps : Int) (height : Int)
deriving DecidableEq

/-- The static camera topology of the configuration. -/
structure FrigateConfig where
  cameras : List String
deriving DecidableEq

/-- Query string of the image endpoints (`h`, and `crop` for `best.jpg`). -/
structure ImgArgs where
  h : Option String := none
  crop : Option String := none
deriving DecidableEq

/-- Query string of the MJPEG stream endpoint. -/
structure MjpegArgs where
  fps : Option String := none
  h : Option String := none
deriving DecidableEq

/-- The best object data `detected_frames_processor.get_best` returns for a
camera/label pair: a dict holding the frame and the last-known bounding
region when a best object has been recorded, and empty otherwise. -/
structure BestObject where
  frame : Option Frame := none
  region : Option (ℕ × ℕ × ℕ × ℕ) := none
deriving DecidableEq

/-- `bool(request.args.get('crop', 0, type=int))`: absent or unparsable
values fall back to 0; the flag is the truthiness of the integer. -/
def cropFlag (v : Option String) : Bool :=
  ((argsGetInt v).getD 0) != 0

/-- `int(request.args.get('h', str(frame.shape[0])))`: the target height,
defaulting to the frame's own height; a supplied unparsable value makes
`int()` raise `ValueError`. -/
def parseHeight (v : Option String) (defaultH : ℕ) : Except PyErr Int :=
  match v with
  | none => .ok (defaultH : Int)
  | some s =>
      match parseInt? s with
      | some n => .ok n
      | none => .error .valueError

/-- The shared resize-and-encode tail of `best` and `latest_frame`:
read the target height, derive the truncated aspect-preserving width, and
resize.  The width computation divides by `frame.shape[0]`, raising
`ZeroDivisionError` on a zero-height frame. -/
def resizeAndEncode (f : Frame) (hArg : Option String) : Except PyErr Response :=
  match parseHeight hArg f.h with
  | .error e => .error e
  | .ok height =>
      if f.h = 0 then .error .zeroDivision
      else .ok (.ok (cvResize f (widthFor height f.w f.h) height))

/-- The `/{camera}/{label}/best.jpg` handler `best`: unknown cameras get a
plain-text 404; a missing best frame is replaced by a blank 720x1280
placeholder (a recorded frame is I420-decoded); an optional crop to the
last-known region, defaulting to `[0, 0, 300, 300]`, precedes the resize. -/
def best (config : FrigateConfig) (camera_name label : String) (args : ImgArgs)
    (best_object : BestObject) : Except PyErr Response :=
  if camera_name ∈ config.cameras then
    let best_frame :=
      match best_object.frame with
      | none => npZeros 720 1280
      | some f => cvtColorI420 f
    let best_frame :=
      if cropFlag args.crop then
        let r := best_object.region.getD (0, 0, 300, 300)
        npCrop best_frame r.1 r.2.1 r.2.2.1 r.2.2.2
      else best_frame
    resizeAndEncode best_frame args.h
  else .ok (.notFound ("Camera named " ++ camera_name ++ " not found"))

/-- The `/{camera}/latest.jpg` handler `latest_frame`: unknown cameras get a
plain-text 404; a missing current frame is replaced by a blank 720x1280
placeholder before the resize. -/
def latest_frame (config : FrigateConfig) (camera_name : String) (args : ImgArgs)
    (frameOpt : Option Frame) : Except PyErr Response :=
  if camera_name ∈ config.cameras then
    let frame := frameOpt.getD (npZeros 720 1280)
    resizeAndEncode frame args.h
  else .ok (.notFound ("Camera named " ++ camera_name ++ " not found"))

/-- The `/{camera}` MJPEG handler `mjpeg_feed`: `fps` and `h` are converted
with bare `int()` (raising on unparsable values) before the camera check;
a known camera gets the multipart streaming response, an unknown one a
plain-text 404.  No validation of `fps` is performed. -/
def mjpeg_feed (config : FrigateConfig) (camera_name : String) (args : MjpegArgs) :
    Except PyErr Response :=
  match parseInt? (args.fps.getD "3") with
  | none => .error .valueError
  | some fps =>
      match parseInt? (args.h.getD "360") with
      | none => .error .valueError
      | some height =>
          if camera_name ∈ config.cameras then .ok (.stream fps height)
          else .ok (.notFound ("Camera named " ++ camera_name ++ " not found"))

/-- Observable actions of one iteration of the `imagestream` generator
loop, in program order. -/
inductive StreamEvent
  | sleep (d : ℚ)
  | fetch (n : ℕ)
  | yieldFrame (f : Frame)
deriving DecidableEq

/-- The frame the `n`-th iteration of `imagestream` emits: the latest
annotated frame (or a blank placeholder of 16:9 aspect at the requested
height), resized to the requested height with the truncated
aspect-preserving width. -/
def streamFrame (height : Int) (frames : ℕ → Option Frame) (n : ℕ) : Frame :=
  let f := (frames n).getD (npZeros height.toNat (height.toNat * 16 / 9))
  cvResize f (widthFor height f.w f.h) height

/-- One iteration of the `while True` loop of `imagestream`: sleep `1/fps`
(raising `ZeroDivisionError` when `fps = 0` and `ValueError` from
`time.sleep` on a negative delay), fetch the latest annotated frame,
substitute the placeholder when none is available (`np.zeros` rejects a
negative height), resize and yield.  The body contains no break or return:
every successful iteration ends in a yield and the loop continues. -/
def imagestreamIter (fps height : Int) (frames : ℕ → Option Frame) (n : ℕ) :
    Except PyErr (List StreamEvent) :=
  if fps = 0 then .error .zeroDivision
  else if fps < 0 then .error .valueError
  else
    match frames n with
    | none =>
        if height < 0 then .error .valueError
        else
          let f := npZeros height.toNat (height.toNat * 16 / 9)
          if f.h = 0 then .error .zeroDivision
          else .ok [.sleep (1 / (fps : ℚ)), .fetch n, .yieldFrame (streamFrame height frames n)]
    | some f =>
        if f.h = 0 then .error .zeroDivision
        else .ok [.sleep (1 / (fps : ℚ)), .fetch n, .yieldFrame (streamFrame height frames n)]

/-- The flattened event trace of the first `N` iterations of the stream
(an erroring iteration contributes nothing; under the hypotheses of the
theorems below every iteration succeeds). -/
def streamEvents (fps height : Int) (frames : ℕ → Option Frame) (N : ℕ) : List StreamEvent :=
  (List.range N).flatMap (fun n => ((imagestreamIter fps height frames n).toOption).getD [])

/-- The per-camera gauges and process identifiers `stats` reads. -/
structure CameraMetrics where
  camera_fps : ℚ
  process_fps : ℚ
  skipped_fps : ℚ
  detection_fps : ℚ
  pid : ℕ
  capture_pid : ℕ
deriving DecidableEq

/-- The per-detector gauges and process identifier `stats` reads. -/
structure DetectorMetrics where
  avg_inference_speed : ℚ
  detection_start : ℚ
  pid : ℕ
deriving DecidableEq

/-- The displayed per-camera entry of the `/stats` snapshot. -/
structure CameraStatEntry where
  camera_fps : ℚ
  process_fps : ℚ
  skipped_fps : ℚ
  detection_fps : ℚ
  pid : ℕ
  capture_pid : ℕ
deriving DecidableEq

/-- The displayed per-detector entry of the `/stats` snapshot. -/
structure DetectorStatEntry where
  inference_speed : ℚ
  detection_start : ℚ
  pid : ℕ
deriving DecidableEq

/-- The `/stats` snapshot. -/
structure StatsSnapshot where
  cameras : List (String × CameraStatEntry)
  detectors : List (String × DetectorStatEntry)
  detection_fps : ℚ
deriving DecidableEq

/-- Python's `round(x, 2)`: round to two decimal places.  The model rounds
halves up where Python rounds them to even; no value considered here is a
tie. -/
def round2 (q : ℚ) : ℚ := ((round (q * 100) : ℤ) : ℚ) / 100

/-- The displayed entry built from one camera's gauges. -/
def mkCameraEntry (m : CameraMetrics) : CameraStatEntry :=
  ⟨round2 m.camera_fps, round2 m.process_fps, round2 m.skipped_fps,
   round2 m.detection_fps, m.pid, m.capture_pid⟩

/-- The camera loop of `stats`, in explicit state-passing form: walk the
shared per-camera metrics reading each gauge, accumulate the raw (unrounded)
detection rate into `total_detection_fps`, build the displayed entries, and
return the shared state as the loop leaves it. -/
def statsCamLoop : List (String × CameraMetrics) →
    (ℚ × List (String × CameraStatEntry)) × List (String × CameraMetrics)
  | [] => ((0, []), [])
  | p :: rest =>
      let entry := mkCameraEntry p.2
      let (acc, rest') := statsCamLoop rest
      ((p.2.detection_fps + acc.1, (p.1, entry) :: acc.2), p :: rest')

/-- The `/stats` handler: per-camera rounded gauges plus pids, per-detector
rounded inference latency (milliseconds) plus last-detection timestamp and
pid, and the summed total detection rate, rounded for display.  The second
component is the shared metrics state after the read. -/
def stats (cams : List (String × CameraMetrics)) (dets : List (String × DetectorMetrics)) :
    StatsSnapshot × List (String × CameraMetrics) :=
  let (acc, cams') := statsCamLoop cams
  (⟨acc.2,
    dets.map (fun p =>
      (p.1, ⟨round2 (p.2.avg_inference_speed * 1000), p.2.detection_start, p.2.pid⟩)),
    round2 acc.1⟩,
   cams')

/-! ## Theorems -/

/-- C3: the claim says an unparsable `before`/`after`/`limit` must surface as
an `InvalidFilter` 400-class failure.  The code does not: Flask's `type=int`
coercion silently maps an unparsable `before`/`after` to an absent value, so
the filter is dropped and the full result is returned with status 200 (shown
here on a concrete one-event store where `before=yesterday` should have
filtered the event out); an unparsable `limit` instead propagates to the
database layer, whose datatype mismatch escapes as an unhandled 500, not a
400. -/
theorem events_unparsable_filter_silently_defaulted :
    argsGetInt (some "yesterday") = none ∧
    events { before := some "yesterday" } [⟨"e1", "cam", "person", [], 1, 2⟩]
      = .ok [⟨"e1", "cam", "person", [], 1, 2⟩] ∧
    events { limit := some "many" } [] = .error .datatypeMismatch := by
  refine ⟨rfl, ?_, rfl⟩
  simp [events, resolveLimit, applyLimit, sortByStartTimeDesc, eventMatches, argsGetInt,
    parseInt?, decDigits?, decDigitsAux]

/-- C7 counterexample: the claim says a crop request with no recorded region
crops to a *full-frame-sized* region.  On a camera/label pair with no best
object at all, the working frame is the 720x1280 placeholder, yet the
default region is the fixed `[0, 0, 300, 300]`: the returned image is
300x300, not full-frame-sized. -/
theorem best_default_region_counterexample :
    best ⟨["back"]⟩ "back" "person" ⟨none, some "1"⟩ ⟨none, none⟩
      = .ok (.ok ⟨300, 300, true⟩) ∧
    ¬ (300 = 720 ∧ 300 = 1280) := by
  exact ⟨by decide, by decide⟩

/-- C7 (amended): a `best.jpg` crop request against a camera/label pair with
no tracked or recorded best object crops to the fixed default region
`[0, 0, 300, 300]` — a 300x300 origin-anchored rectangle, not a
full-frame-sized one — and returns an image (of that region's size) without
failing. -/
theorem best_default_region_spec (config : FrigateConfig) (cam label : String)
    (hcam : cam ∈ config.cameras) :
    best config cam label ⟨none, some "1"⟩ ⟨none, none⟩ = .ok (.ok ⟨300, 300, true⟩) := by
  simp [best, hcam, cropFlag, argsGetInt, parseInt?, decDigits?, decDigitsAux,
    npZeros, npCrop, npSliceLen, resizeAndEncode, parseHeight, widthFor, cvResize]
  decide

/-- C7 witness. -/
theorem best_default_region_spec_witness :
    best ⟨["side"]⟩ "side" "dog" ⟨none, some "1"⟩ ⟨none, none⟩ = .ok (.ok ⟨300, 300, true⟩) :=
  best_default_region_spec ⟨["side"]⟩ "side" "dog" (by decide)

/-- C8: on a known camera with no live frame and no best-shot snapshot yet,
`latest.jpg` and `best.jpg` do not fail: each substitutes the fixed 720x1280
blank placeholder (which the default `h` leaves at its own size) and returns
it as a successful image response. -/
theorem placeholder_on_missing_frame_spec (config : FrigateConfig) (cam label : String)
    (hcam : cam ∈ config.cameras) :
    latest_frame config cam ⟨none, none⟩ none = .ok (.ok ⟨720, 1280, true⟩) ∧
    best config cam label ⟨none, none⟩ ⟨none, none⟩ = .ok (.ok ⟨720, 1280, true⟩) := by
  constructor
  · simp [latest_frame, hcam, npZeros, resizeAndEncode, parseHeight, widthFor, cvResize]
    decide
  · simp [best, hcam, cropFlag, argsGetInt, npZeros, resizeAndEncode, parseHeight,
      widthFor, cvResize]
    decide

/-- C8 witness. -/
theorem placeholder_on_missing_frame_spec_witness :
    latest_frame ⟨["back"]⟩ "back" ⟨none, none⟩ none = .ok (.ok ⟨720, 1280, true⟩) ∧
    best ⟨["back"]⟩ "back" "person" ⟨none, none⟩ ⟨none, none⟩ = .ok (.ok ⟨720, 1280, true⟩) :=
  placeholder_on_missing_frame_spec ⟨["back"]⟩ "back" "person" (by decide)

/-- C9 counterexample: the claim says every camera-scoped route returns a
404 with no server-side fault for an unknown camera; but `mjpeg_feed`
converts `fps` with a bare `int()` *before* the camera check, so an
unparsable `fps` on an unknown camera raises `ValueError` (an unhandled 500)
instead of returning the 404. -/
theorem unknown_camera_fps_fault_counterexample :
    ("ghost" ∈ (FrigateConfig.mk ["back"]).cameras → False) ∧
    mjpeg_feed ⟨["back"]⟩ "ghost" ⟨some "abc", none⟩ = .error .valueError ∧
    ∀ msg, mjpeg_feed ⟨["back"]⟩ "ghost" ⟨some "abc", none⟩ ≠ .ok (.notFound msg) := by
  refine ⟨by decide, by decide, fun msg => ?_⟩
  intro h
  simp [mjpeg_feed, parseInt?, decDigits?, decDigitsAux] at h

/-- C9 (amended): for a camera name outside the known topology, `latest.jpg`
and `best.jpg` return a plain-text not-found response for every query
string, and the MJPEG route does so for every query string whose `fps` and
`h` values parse as integers (its bare `int()` conversions run before the
camera check and raise a server-side fault on unparsable values); none of
these 404 paths raises. -/
theorem unknown_camera_spec (config : FrigateConfig) (cam : String)
    (hcam : cam ∉ config.cameras) :
    (∀ args frameOpt, latest_frame config cam args frameOpt
        = .ok (.notFound ("Camera named " ++ cam ++ " not found"))) ∧
    (∀ label args bo, best config cam label args bo
        = .ok (.notFound ("Camera named " ++ cam ++ " not found"))) ∧
    (∀ args fps height, parseInt? (args.fps.getD "3") = some fps →
        parseInt? (args.h.getD "360") = some height →
        mjpeg_feed config cam args
          = .ok (.notFound ("Camera named " ++ cam ++ " not found"))) := by
  refine ⟨fun args frameOpt => ?_, fun label args bo => ?_, fun args fps height hf hh => ?_⟩
  · simp [latest_frame, hcam]
  · simp [best, hcam]
  · simp [mjpeg_feed, hf, hh, hcam]

/-- C9 witness. -/
theorem unknown_camera_spec_witness :
    latest_frame ⟨["back"]⟩ "front" ⟨none, none⟩ none
      = .ok (.notFound ("Camera named " ++ "front" ++ " not found")) ∧
    best ⟨["back"]⟩ "front" "person" ⟨none, none⟩ ⟨none, none⟩
      = .ok (.notFound ("Camera named " ++ "front" ++ " not found")) ∧
    mjpeg_feed ⟨["back"]⟩ "front" ⟨none, none⟩
      = .ok (.notFound ("Camera named " ++ "front" ++ " not found")) := by
  have h := unknown_camera_spec ⟨["back"]⟩ "front" (by decide)
  exact ⟨h.1 ⟨none, none⟩ none, h.2.1 "person" ⟨none, none⟩ ⟨none, none⟩,
    h.2.2 ⟨none, none⟩ 3 360 (by decide) (by decide)⟩

/-- C10: the MJPEG route accepts `fps=0` without validation — on a known
camera it starts the multipart stream — and the generator's first iteration
then raises `ZeroDivisionError` at `time.sleep(1/fps)` before fetching or
emitting any frame, rather than returning a 400-class response. -/
theorem mjpeg_fps_zero_spec :
    mjpeg_feed ⟨["back"]⟩ "back" ⟨some "0", none⟩ = .ok (.stream 0 360) ∧
    (∀ frames height n, imagestreamIter 0 height frames n = .error .zeroDivision) := by
  exact ⟨by decide, fun frames height n => rfl⟩

/-- The raw detection-rate total accumulated by the camera loop of `stats`
is the sum of the cameras' unrounded gauges. -/
theorem statsCamLoop_total (cams : List (String × CameraMetrics)) :
    (statsCamLoop cams).1.1 = (cams.map (fun p => p.2.detection_fps)).sum := by
  induction cams with
  | nil => rfl
  | cons p rest ih => simp [statsCamLoop, ih]

/-- The displayed per-camera entries of `stats` are the per-camera gauges,
each rounded independently. -/
theorem statsCamLoop_entries (cams : List (String × CameraMetrics)) :
    (statsCamLoop cams).1.2 = cams.map (fun p => (p.1, mkCameraEntry p.2)) := by
  induction cams with
  | nil => rfl
  | cons p rest ih => simp [statsCamLoop, ih]

/-- The camera loop of `stats` leaves the shared metrics unchanged. -/
theorem statsCamLoop_state (cams : List (String × CameraMetrics)) :
    (statsCamLoop cams).2 = cams := by
  induction cams with
  | nil => rfl
  | cons p rest ih => simp [statsCamLoop, ih]

/-- C6 counterexample: with two cameras whose detection gauges both read
1.114, the snapshot's displayed total is `round2(2.228) = 2.23`, while the
sum of the individually reported (rounded) per-camera rates is
`1.11 + 1.11 = 2.22`: the total does not equal the sum of the reported
per-camera values. -/
theorem stats_total_rounding_counterexample :
    (stats [("cam_a", ⟨0, 0, 0, 1114/1000, 1, 2⟩), ("cam_b", ⟨0, 0, 0, 1114/1000, 3, 4⟩)]
        []).1.detection_fps = 223/100 ∧
    (((stats [("cam_a", ⟨0, 0, 0, 1114/1000, 1, 2⟩), ("cam_b", ⟨0, 0, 0, 1114/1000, 3, 4⟩)]
        []).1.cameras.map (fun p => p.2.detection_fps)).sum = 222/100) ∧
    (223/100 : ℚ) ≠ 222/100 := by
  have h111 : round ((557 : ℚ)/5) = 111 := by
    rw [round_eq, show ((557 : ℚ)/5 + 1/2) = 1119/10 by norm_num, Int.floor_eq_iff]
    norm_num
  have h223 : round ((1114 : ℚ)/5) = 223 := by
    rw [round_eq, show ((1114 : ℚ)/5 + 1/2) = 2233/10 by norm_num, Int.floor_eq_iff]
    norm_num
  refine ⟨?_, ?_, by norm_num⟩
  · simp [stats, statsCamLoop, round2]
    norm_num [h223]
  · simp [stats, statsCamLoop, mkCameraEntry, round2]
    norm_num [h111]

/-- C6 (amended): the `/stats` snapshot's single total detection rate is the
sum of the cameras' *unrounded* detection gauges, rounded to two decimal
places for display; each per-camera rate is rounded to two decimal places
independently (so the displayed total need not equal the sum of the
displayed per-camera values); and the read leaves the underlying stored
gauges unchanged. -/
theorem stats_detection_fps_spec (cams : List (String × CameraMetrics))
    (dets : List (String × DetectorMetrics)) :
    (stats cams dets).1.detection_fps = round2 ((cams.map (fun p => p.2.detection_fps)).sum) ∧
    (stats cams dets).1.cameras = cams.map (fun p => (p.1, mkCameraEntry p.2)) ∧
    (stats cams dets).2 = cams := by
  refine ⟨?_, ?_, ?_⟩
  · simp [stats, statsCamLoop_total]
  · simp [stats, statsCamLoop_entries]
  · simp [stats, statsCamLoop_state]

/-- Floor and round of a rational differ by at most one. -/
theorem abs_floor_sub_round_le_one (q : ℚ) : |⌊q⌋ - round q| ≤ 1 := by
  rw [round_eq, abs_sub_le_iff]
  constructor
  · have h1 : ⌊q⌋ ≤ ⌊q + 1/2⌋ := Int.floor_mono (by linarith)
    omega
  · have h2 : ⌊q + 1/2⌋ ≤ ⌊q + 1⌋ := Int.floor_mono (by linarith)
    rw [Int.floor_add_one] at h2
    omega

/-- C4: for a source frame of width `W > 0` and height `H > 0` and a
requested target height `HT ≥ 0`, both image endpoints return an image of
height `HT` whose width is `HT * W / H` truncated toward zero, which equals
the floor of the exact quotient and is within 1 of its rounding.  For
`best.jpg` the source frame is the I420-decoded recording. -/
theorem resize_dimensions_spec (config : FrigateConfig) (cam label s : String)
    (HT : Int) (W H : ℕ) (b : Bool) (fRaw : Frame) (region : Option (ℕ × ℕ × ℕ × ℕ))
    (hcam : cam ∈ config.cameras) (hs : parseInt? s = some HT) (hHT : 0 ≤ HT)
    (hW : 0 < W) (hH : 0 < H) (hcvt : cvtColorI420 fRaw = ⟨H, W, b⟩) :
    latest_frame config cam ⟨some s, none⟩ (some ⟨H, W, b⟩)
      = .ok (.ok ⟨HT.toNat, (Int.tdiv (HT * W) H).toNat, b⟩) ∧
    best config cam label ⟨some s, none⟩ ⟨some fRaw, region⟩
      = .ok (.ok ⟨HT.toNat, (Int.tdiv (HT * W) H).toNat, b⟩) ∧
    Int.tdiv (HT * W) H = ⌊((HT : ℚ) * W) / (H : ℚ)⌋ ∧
    |Int.tdiv (HT * W) H - round (((HT : ℚ) * W) / (H : ℚ))| ≤ 1 := by
  have hH0 : H ≠ 0 := by omega
  have hfl : ⌊((HT : ℚ) * W) / (H : ℚ)⌋ = (HT * (W : ℤ)) / (H : ℤ) := by
    rw [show ((HT : ℚ) * W) = (((HT * (W : ℤ)) : ℤ) : ℚ) by push_cast; ring]
    exact Rat.floor_intCast_div_natCast (HT * W) H
  have htd : Int.tdiv (HT * W) H = ⌊((HT : ℚ) * W) / (H : ℚ)⌋ := by
    rw [hfl]
    exact Int.tdiv_eq_ediv (by positivity) (by positivity)
  refine ⟨?_, ?_, htd, ?_⟩
  · simp [latest_frame, hcam, resizeAndEncode, parseHeight, hs, hH0, widthFor, cvResize]
  · simp [best, hcam, cropFlag, argsGetInt, hcvt, resizeAndEncode, parseHeight, hs, hH0,
      widthFor, cvResize]
  · rw [htd]
    exact abs_floor_sub_round_le_one _

/-- C4 witness. -/
theorem resize_dimensions_spec_witness :
    latest_frame ⟨["back"]⟩ "back" ⟨some "90", none⟩ (some ⟨120, 160, false⟩)
      = .ok (.ok ⟨(90 : Int).toNat, (Int.tdiv ((90 : Int) * 160) 120).toNat, false⟩) ∧
    best ⟨["back"]⟩ "back" "person" ⟨some "90", none⟩ ⟨some ⟨180, 160, false⟩, none⟩
      = .ok (.ok ⟨(90 : Int).toNat, (Int.tdiv ((90 : Int) * 160) 120).toNat, false⟩) ∧
    Int.tdiv ((90 : Int) * 160) 120 = ⌊(((90 : Int) : ℚ) * 160) / ((120 : ℕ) : ℚ)⌋ ∧
    |Int.tdiv ((90 : Int) * 160) 120 - round ((((90 : Int) : ℚ) * 160) / ((120 : ℕ) : ℚ))| ≤ 1 :=
  resize_dimensions_spec ⟨["back"]⟩ "back" "person" "90" 90 160 120 false ⟨180, 160, false⟩ none
    (by decide) (by decide) (by decide) (by decide) (by decide) (by decide)

/-- Under a positive fps, a positive requested height, and a pipeline that
only supplies frames of positive height, every iteration of the stream
generator succeeds and consists of the `1/fps` sleep, the fetch, and the
yield of the processed frame, in program order. -/
theorem imagestreamIter_ok (fps height : Int) (frames : ℕ → Option Frame)
    (hfps : 0 < fps) (hh : 0 < height)
    (hframes : ∀ n f, frames n = some f → 0 < f.h) (n : ℕ) :
    imagestreamIter fps height frames n
      = .ok [.sleep (1 / (fps : ℚ)), .fetch n, .yieldFrame (streamFrame height frames n)] := by
  unfold imagestreamIter
  rw [if_neg (by omega), if_neg (by omega)]
  cases hfn : frames n with
  | none =>
      rw [if_neg (by omega)]
      simp [npZeros, show ¬(height.toNat = 0) by omega]
  | some f =>
      have hf := hframes n f hfn
      simp [show ¬(f.h = 0) by omega]

/-- Under the same hypotheses, the flattened trace of the first `N`
iterations has exactly three events per iteration. -/
theorem streamEvents_length (fps height : Int) (frames : ℕ → Option Frame)
    (hfps : 0 < fps) (hh : 0 < height)
    (hframes : ∀ n f, frames n = some f → 0 < f.h) (N : ℕ) :
    (streamEvents fps height frames N).length = 3 * N := by
  induction N with
  | zero => rfl
  | succ N ih =>
      rw [streamEvents, List.range_succ, List.flatMap_append, ← streamEvents]
      simp [ih, imagestreamIter_ok fps height frames hfps hh hframes N, Except.toOption]
      omega

/-- Under the same hypotheses, the `i`-th event of the flattened trace is
determined by `i` modulo 3: a `1/fps` sleep, then a fetch, then a yield. -/
theorem streamEvents_getElem? (fps height : Int) (frames : ℕ → Option Frame)
    (hfps : 0 < fps) (hh : 0 < height)
    (hframes : ∀ n f, frames n = some f → 0 < f.h) (N i : ℕ) (hi : i < 3 * N) :
    (streamEvents fps height frames N)[i]? =
      (if i % 3 = 0 then some (.sleep (1 / (fps : ℚ)))
       else if i % 3 = 1 then some (.fetch (i / 3))
       else some (.yieldFrame (streamFrame height frames (i / 3)))) := by
  induction N with
  | zero => omega
  | succ N ih =>
      rw [streamEvents, List.range_succ, List.flatMap_append, ← streamEvents]
      rw [List.getElem?_append]
      rw [streamEvents_length fps height frames hfps hh hframes N]
      by_cases hlt : i < 3 * N
      · rw [if_pos hlt]
        exact ih hlt
      · rw [if_neg hlt]
        simp only [List.flatMap_cons, List.flatMap_nil, List.append_nil]
        rw [imagestreamIter_ok fps height frames hfps hh hframes N]
        have h3 : i - 3 * N = 0 ∨ i - 3 * N = 1 ∨ i - 3 * N = 2 := by omega
        have hdiv : i / 3 = N := by omega
        rcases h3 with h | h | h
        · rw [h, show i % 3 = 0 by omega]
          simp [Except.toOption]
        · rw [h, show i % 3 = 1 by omega, hdiv]
          simp [Except.toOption]
        · rw [h, show i % 3 = 2 by omega, hdiv]
          simp [Except.toOption]

/-- C5: with a positive fps and height and a well-formed pipeline, (1) every
iteration of the MJPEG generator succeeds and consists of the `1/fps` sleep
*followed by* the frame fetch and the yield — so the generator never
terminates on its own: every iteration, for all `n`, ends in a yield — and
(2) in the flattened event trace, strictly between any two yielded frames
there is a sleep of `1/fps` seconds: no two frames are emitted closer
together than the requested interval. -/
theorem imagestream_spec (fps height : Int) (frames : ℕ → Option Frame)
    (hfps : 0 < fps) (hh : 0 < height)
    (hframes : ∀ n f, frames n = some f → 0 < f.h) :
    (∀ n, imagestreamIter fps height frames n
        = .ok [.sleep (1 / (fps : ℚ)), .fetch n, .yieldFrame (streamFrame height frames n)]) ∧
    (∀ (N i j : ℕ) (f g : Frame), i < j →
        (streamEvents fps height frames N)[i]? = some (StreamEvent.yieldFrame f) →
        (streamEvents fps height frames N)[j]? = some (StreamEvent.yieldFrame g) →
        ∃ k, i < k ∧ k < j ∧
          (streamEvents fps height frames N)[k]? = some (.sleep (1 / (fps : ℚ)))) := by
  constructor
  · exact imagestreamIter_ok fps height frames hfps hh hframes
  · intro N i j f g hij hi hj
    have hjlen : j < (streamEvents fps height frames N).length := by
      have := List.getElem?_eq_some_iff.mp hj
      exact this.1
    rw [streamEvents_length fps height frames hfps hh hframes N] at hjlen
    have hilt : i < 3 * N := by omega
    have him : i % 3 = 2 := by
      rw [streamEvents_getElem? fps height frames hfps hh hframes N i hilt] at hi
      by_contra hne
      have hm3 : i % 3 = 0 ∨ i % 3 = 1 ∨ i % 3 = 2 := by omega
      rcases hm3 with h | h | h
      · rw [if_pos h] at hi
        simp at hi
      · rw [if_neg (by omega), if_pos h] at hi
        simp at hi
      · exact hne h
    have hjm : j % 3 = 2 := by
      rw [streamEvents_getElem? fps height frames hfps hh hframes N j hjlen] at hj
      by_contra hne
      have hm3 : j % 3 = 0 ∨ j % 3 = 1 ∨ j % 3 = 2 := by omega
      rcases hm3 with h | h | h
      · rw [if_pos h] at hj
        simp at hj
      · rw [if_neg (by omega), if_pos h] at hj
        simp at hj
      · exact hne h
    refine ⟨i + 1, by omega, by omega, ?_⟩
    rw [streamEvents_getElem? fps height frames hfps hh hframes N (i + 1) (by omega)]
    rw [if_pos (by omega)]

/-- C5 witness. -/
theorem imagestream_spec_witness :
    imagestreamIter 5 360 (fun _ => none) 0
      = .ok [.sleep (1 / ((5 : Int) : ℚ)), .fetch 0,
             .yieldFrame (streamFrame 360 (fun _ => none) 0)] :=
  (imagestream_spec 5 360 (fun _ => none) (by decide) (by decide)
    (fun n f h => by simp at h)).1 0

/-- C1 counterexample: the claim says every supplied filter is combined into
the conjunction, but the handler guards each clause with Python truthiness:
`before=0` parses to the falsy integer 0, the clause is dropped, and an
event with `start_time = 1` is returned even though `1 ≤ 0` fails — the
supplied `before` bound was not applied. -/
theorem events_falsy_filter_counterexample :
    events { before := some "0" } [⟨"e1", "cam", "person", [], 1, 2⟩]
      = .ok [⟨"e1", "cam", "person", [], 1, 2⟩] ∧
    ¬ ((1 : Int) ≤ 0) := by
  constructor
  · simp [events, resolveLimit, applyLimit, sortByStartTimeDesc, eventMatches, argsGetInt,
      parseInt?, decDigits?, decDigitsAux]
  · omega

/-- C1 (amended): every successful `/events` result is sorted by start time
descending; its length is bounded by any nonnegative resolved limit, and by
100 — the default — when no limit is supplied; every returned event
satisfies the conjunction of the *effective* filters (a supplied falsy
value — the integer 0 for `after`/`before`, the empty string for
`camera`/`label`/`zone` — is treated as absent by the truthiness guards);
and supplying no parameters at all returns the most recent 100 events
unfiltered. -/
theorem events_query_spec (args : RawArgs) (db : List Event) (res : List Event)
    (hres : events args db = .ok res) :
    List.Sorted (fun a b : Event => b.start_time ≤ a.start_time) res ∧
    (∀ n : Int, resolveLimit args.limit = .ok n → 0 ≤ n → (res.length : Int) ≤ n) ∧
    (args.limit = none → res.length ≤ 100) ∧
    (∀ e ∈ res, eventMatches args e = true) ∧
    (args = {} → res = (sortByStartTimeDesc db).take 100) := by
  have hn : ∃ n, resolveLimit args.limit = .ok n ∧
      res = applyLimit n (sortByStartTimeDesc (db.filter (fun e => eventMatches args e))) := by
    unfold events at hres
    cases hr : resolveLimit args.limit with
    | error e => rw [hr] at hres; simp at hres
    | ok n =>
        rw [hr] at hres
        simp only [Except.ok.injEq] at hres
        exact ⟨n, rfl, hres.symm⟩
  obtain ⟨n, hrl, hres'⟩ := hn
  have htrans : ∀ a b c : Event, eventLe a b = true → eventLe b c = true →
      eventLe a c = true := by
    intro a b c
    simp only [eventLe, decide_eq_true_eq]
    omega
  have htotal : ∀ a b : Event, (eventLe a b || eventLe b a) = true := by
    intro a b
    simp only [eventLe, Bool.or_eq_true, decide_eq_true_eq]
    omega
  have hsorted : List.Sorted (fun a b : Event => b.start_time ≤ a.start_time)
      (sortByStartTimeDesc (db.filter (fun e => eventMatches args e))) := by
    have hp := List.sorted_mergeSort htrans htotal (db.filter (fun e => eventMatches args e))
    rw [sortByStartTimeDesc]
    exact hp.imp (fun hab => by simpa [eventLe] using hab)
  have hsub : ∀ l, (applyLimit n l).Sublist l := by
    intro l
    rw [applyLimit]
    split
    · exact List.Sublist.refl l
    · exact List.take_sublist _ l
  refine ⟨?_, ?_, ?_, ?_, ?_⟩
  · rw [hres']
    exact List.Pairwise.sublist (hsub _) hsorted
  · intro m hm hm0
    rw [hrl] at hm
    simp only [Except.ok.injEq] at hm
    subst hm
    rw [hres', applyLimit, if_neg (by omega)]
    have hlen := List.length_take_le n.toNat
      (sortByStartTimeDesc (db.filter (fun e => eventMatches args e)))
    omega
  · intro hnone
    rw [hnone] at hrl
    simp only [resolveLimit, Except.ok.injEq] at hrl
    subst hrl
    rw [hres', applyLimit, if_neg (by omega)]
    have hlen := List.length_take_le (Int.toNat 100)
      (sortByStartTimeDesc (db.filter (fun e => eventMatches args e)))
    omega
  · intro e he
    rw [hres'] at he
    have he1 : e ∈ sortByStartTimeDesc (db.filter (fun x => eventMatches args x)) :=
      (hsub _).subset he
    rw [sortByStartTimeDesc, List.mem_mergeSort] at he1
    exact (List.mem_filter.mp he1).2
  · intro hargs
    subst hargs
    simp only [resolveLimit, Except.ok.injEq] at hrl
    subst hrl
    have hfilter : (db.filter (fun e => eventMatches ({} : RawArgs) e)) = db := by
      apply List.filter_eq_self.mpr
      intro e _
      simp [eventMatches, argsGetInt]
    rw [hres', applyLimit, if_neg (by omega), hfilter]
    rfl

/-- C1 witness. -/
theorem events_query_spec_witness :
    List.Sorted (fun a b : Event => b.start_time ≤ a.start_time)
      [(⟨"e1", "cam", "person", [], 1, 2⟩ : Event)] ∧
    (∀ n : Int, resolveLimit ({} : RawArgs).limit = .ok n → 0 ≤ n →
      (([(⟨"e1", "cam", "person", [], 1, 2⟩ : Event)].length : Int) ≤ n)) ∧
    (({} : RawArgs).limit = none → [(⟨"e1", "cam", "person", [], 1, 2⟩ : Event)].length ≤ 100) ∧
    (∀ e ∈ [(⟨"e1", "cam", "person", [], 1, 2⟩ : Event)], eventMatches {} e = true) ∧
    (({} : RawArgs) = {} →
      [(⟨"e1", "cam", "person", [], 1, 2⟩ : Event)]
        = (sortByStartTimeDesc [⟨"e1", "cam", "person", [], 1, 2⟩]).take 100) :=
  events_query_spec {} [⟨"e1", "cam", "person", [], 1, 2⟩] [⟨"e1", "cam", "person", [], 1, 2⟩]
    (by simp [events, resolveLimit, applyLimit, sortByStartTimeDesc, eventMatches, argsGetInt])

/-- Defining equation of `globMatch` on a `*` head. -/
theorem globMatch_star_eq (p t : List Char) :
    globMatch ('*' :: p) t = t.tails.any (fun s => globMatch p s) := rfl

/-- Defining equation of `globMatch` on a non-`*` head and empty text. -/
theorem globMatch_cons_nil_eq (c : Char) (p : List Char) (hc : ¬ c = '*') :
    globMatch (c :: p) [] = false := by
  rw [globMatch, if_neg hc]

/-- Defining equation of `globMatch` on a non-`*` head and nonempty text. -/
theorem globMatch_cons_cons_eq (c : Char) (p : List Char) (d : Char) (t' : List Char)
    (hc : ¬ c = '*') :
    globMatch (c :: p) (d :: t')
      = if c = '?' then globMatch p t' else decide (d = c) && globMatch p t' := by
  rw [globMatch, if_neg hc]

/-- A lone `*` matches every text. -/
theorem globMatch_star_all (t : List Char) : globMatch ['*'] t = true := by
  rw [globMatch_star_eq, List.any_eq_true]
  exact ⟨[], (List.mem_tails [] t).mpr List.nil_suffix, rfl⟩

/-- A pattern starting with `*` matches a text iff the rest of the pattern
matches some suffix of it. -/
theorem globMatch_star_iff (p t : List Char) :
    globMatch ('*' :: p) t = true ↔ ∃ s, s <:+ t ∧ globMatch p s = true := by
  rw [globMatch_star_eq, List.any_eq_true]
  constructor
  · rintro ⟨s, hs, hm⟩
    exact ⟨s, (List.mem_tails s t).mp hs, hm⟩
  · rintro ⟨s, hs, hm⟩
    exact ⟨s, (List.mem_tails s t).mpr hs, hm⟩

/-- A wildcard-free literal followed by `*` matches a text iff the literal
is a prefix of it. -/
theorem globMatch_lit_star_iff (lit : List Char) (hlit : ∀ c ∈ lit, c ≠ '*' ∧ c ≠ '?') :
    ∀ t, globMatch (lit ++ ['*']) t = true ↔ lit <+: t := by
  induction lit with
  | nil =>
      intro t
      simp [globMatch_star_all t, List.nil_prefix]
  | cons c lit' ih =>
      intro t
      have hc := hlit c (List.mem_cons_self c lit')
      have ih' := ih (fun d hd => hlit d (List.mem_cons_of_mem c hd))
      cases t with
      | nil =>
          rw [List.cons_append, globMatch_cons_nil_eq c (lit' ++ ['*']) hc.1]
          simp [List.prefix_nil]
      | cons d t' =>
          rw [List.cons_append, globMatch_cons_cons_eq c (lit' ++ ['*']) d t' hc.1]
          simp only [if_neg hc.2, Bool.and_eq_true, decide_eq_true_eq,
            List.cons_prefix_cons, ih' t']
          constructor
          · rintro ⟨h1, h2⟩
            exact ⟨h1.symm, h2⟩
          · rintro ⟨h1, h2⟩
            exact ⟨h1.symm, h2⟩

/-- The pattern `*lit*` with a wildcard-free `lit` matches a text iff `lit`
occurs inside it. -/
theorem globMatch_contains_iff (lit : List Char) (hlit : ∀ c ∈ lit, c ≠ '*' ∧ c ≠ '?')
    (t : List Char) : globMatch ('*' :: (lit ++ ['*'])) t = true ↔ lit <:+: t := by
  rw [globMatch_star_iff, List.infix_iff_prefix_suffix]
  constructor
  · rintro ⟨s, hs, hm⟩
    exact ⟨s, (globMatch_lit_star_iff lit hlit s).mp hm, hs⟩
  · rintro ⟨s, hp, hsuf⟩
    exact ⟨s, hsuf, (globMatch_lit_star_iff lit hlit s).mpr hp⟩

/-- An occurrence of a pattern whose first character differs from the head
of the text never uses that head. -/
theorem infix_cons_skip (e c : Char) (p t : List Char) (hne : e ≠ c) :
    (e :: p) <:+: (c :: t) ↔ (e :: p) <:+: t := by
  constructor
  · intro h
    rcases List.infix_cons_iff.mp h with h | h
    · exact absurd (List.cons_prefix_cons.mp h).1 hne
    · exact h
  · intro h
    exact h.trans (List.suffix_cons c t).isInfix

/-- An occurrence of a pattern headed by a character that a leading text
block avoids lies entirely beyond that block. -/
theorem infix_append_skip (e : Char) (p a t : List Char) (ha : e ∉ a) :
    (e :: p) <:+: (a ++ t) ↔ (e :: p) <:+: t := by
  induction a with
  | nil => simp
  | cons c a' ih =>
      have hec : e ≠ c := fun h => ha (List.mem_cons.mpr (Or.inl h))
      rw [List.cons_append, infix_cons_skip e c p (a' ++ t) hec]
      exact ih (fun h => ha (List.mem_cons_of_mem c h))

/-- Mirror image of `infix_cons_skip`: an occurrence of a pattern whose last
character differs from the last character of the text never uses it. -/
theorem infix_concat_skip (e c : Char) (u t : List Char) (hne : e ≠ c) :
    (u ++ [e]) <:+: (t ++ [c]) ↔ (u ++ [e]) <:+: t := by
  have hrev : (u ++ [e]).reverse = e :: u.reverse := by simp
  constructor
  · intro h
    have h1 : (u ++ [e]).reverse <:+: (t ++ [c]).reverse := List.reverse_infix.mpr h
    rw [hrev, List.reverse_append, List.reverse_singleton, List.singleton_append] at h1
    have h2 := (infix_cons_skip e c u.reverse t.reverse hne).mp h1
    rw [← hrev] at h2
    exact List.reverse_infix.mp h2
  · intro h
    have h1 : e :: u.reverse <:+: t.reverse := by
      have h0 := List.reverse_infix.mpr h
      rwa [hrev] at h0
    have h2 : e :: u.reverse <:+: c :: t.reverse :=
      (infix_cons_skip e c u.reverse t.reverse hne).mpr h1
    have h3 : (u ++ [e]).reverse <:+: (t ++ [c]).reverse := by
      rw [hrev, List.reverse_append, List.reverse_singleton, List.singleton_append]
      exact h2
    exact List.reverse_infix.mp h3

/-- Two quote-free blocks each followed by a quote: if one (with its quote)
is a prefix of the other (with its quote and more), the blocks are equal. -/
theorem quote_prefix_eq : ∀ (z a w v : List Char), '"' ∉ z → '"' ∉ a →
    (z ++ '"' :: w) <+: (a ++ '"' :: v) → z = a := by
  intro z
  induction z with
  | nil =>
      intro a w v _ ha hp
      cases a with
      | nil => rfl
      | cons c a' =>
          rw [List.nil_append, List.cons_append] at hp
          have h := (List.cons_prefix_cons.mp hp).1
          exact absurd (List.mem_cons.mpr (Or.inl h)) ha
  | cons x z' ih =>
      intro a w v hz ha hp
      cases a with
      | nil =>
          rw [List.cons_append, List.nil_append] at hp
          have h := (List.cons_prefix_cons.mp hp).1
          exact absurd (List.mem_cons.mpr (Or.inl h.symm)) hz
      | cons d a' =>
          rw [List.cons_append, List.cons_append] at hp
          obtain ⟨hxd, hp'⟩ := List.cons_prefix_cons.mp hp
          have hz' : '"' ∉ z' := fun h => hz (List.mem_cons_of_mem x h)
          have ha' : '"' ∉ a' := fun h => ha (List.mem_cons_of_mem d h)
          rw [hxd, ih a' w v hz' ha' hp']

/-- The quoted block seen as a cons rather than an append. -/
theorem quoteName_eq_cons (n : List Char) : quoteName n = '"' :: (n ++ ['"']) := by
  rw [quoteName, List.cons_append]

/-- `innerSer` on a singleton. -/
theorem innerSer_single (n : List Char) : innerSer [n] = quoteName n := rfl

/-- `innerSer` on two or more elements. -/
theorem innerSer_pair (n r : List Char) (rest : List (List Char)) :
    innerSer (n :: r :: rest) = quoteName n ++ (',' :: ' ' :: innerSer (r :: rest)) := rfl

/-- The serialized body seen as a cons: leading quote, then the first name
followed by the quote-delimited remainder. -/
theorem innerSer_pair_cons (n r : List Char) (rest : List (List Char)) :
    innerSer (n :: r :: rest)
      = '"' :: (n ++ ('"' :: ',' :: ' ' :: innerSer (r :: rest))) := by
  rw [innerSer_pair, quoteName]
  simp [List.append_assoc]

/-- Key combinatorial fact about the serialization: for a nonempty,
quote-free, comma-free name `z` and quote-free serialized names, the quoted
block `"z"` occurs inside the serialized body iff `z` is one of the
serialized names.  The closing and opening quotes delimiting each name make
a proper-substring occurrence impossible. -/
theorem quote_infix_innerSer_iff : ∀ (zs : List (List Char)) (z : List Char),
    z ≠ [] → '"' ∉ z → ',' ∉ z → (∀ n ∈ zs, '"' ∉ n) →
    (quoteName z <:+: innerSer zs ↔ z ∈ zs) := by
  intro zs
  induction zs with
  | nil =>
      intro z hz hzq hzc hns
      simp [innerSer, quoteName, List.infix_nil]
  | cons n rest ih =>
      intro z hz hzq hzc hns
      have hn : '"' ∉ n := hns n (List.mem_cons_self n rest)
      cases rest with
      | nil =>
          rw [innerSer_single, quoteName_eq_cons z, quoteName_eq_cons n]
          constructor
          · intro h
            rcases List.infix_cons_iff.mp h with h | h
            · obtain ⟨-, hp⟩ := List.cons_prefix_cons.mp h
              have hzn := quote_prefix_eq z n [] [] hzq hn hp
              simp [hzn]
            · have h2 := (infix_append_skip '"' (z ++ ['"']) n ['"'] hn).mp h
              rcases List.infix_cons_iff.mp h2 with h3 | h3
              · obtain ⟨-, hp⟩ := List.cons_prefix_cons.mp h3
                rw [List.prefix_nil] at hp
                simp at hp
              · rw [List.infix_nil] at h3
                simp at h3
          · intro h
            rw [List.mem_singleton] at h
            subst h
            exact List.infix_refl _
      | cons r rest' =>
          rw [innerSer_pair_cons, quoteName_eq_cons z]
          constructor
          · intro h
            rcases List.infix_cons_iff.mp h with h | h
            · obtain ⟨-, hp⟩ := List.cons_prefix_cons.mp h
              have hzn := quote_prefix_eq z n [] (',' :: ' ' :: innerSer (r :: rest')) hzq hn hp
              simp [hzn]
            · have h2 := (infix_append_skip '"' (z ++ ['"']) n
                ('"' :: ',' :: ' ' :: innerSer (r :: rest')) hn).mp h
              rcases List.infix_cons_iff.mp h2 with h3 | h3
              · obtain ⟨-, hp⟩ := List.cons_prefix_cons.mp h3
                cases z with
                | nil => exact absurd rfl hz
                | cons zc z'' =>
                    rw [List.cons_append] at hp
                    have hzcomma := (List.cons_prefix_cons.mp hp).1
                    exact absurd (List.mem_cons.mpr (Or.inl hzcomma.symm)) hzc
              · have h4 := (infix_cons_skip '"' ',' (z ++ ['"'])
                  (' ' :: innerSer (r :: rest')) (by decide)).mp h3
                have h5 := (infix_cons_skip '"' ' ' (z ++ ['"'])
                  (innerSer (r :: rest')) (by decide)).mp h4
                have h6 : quoteName z <:+: innerSer (r :: rest') := by
                  rw [quoteName_eq_cons]
                  exact h5
                have hmem := (ih z hz hzq hzc
                  (fun m hm => hns m (List.mem_cons_of_mem n hm))).mp h6
                exact List.mem_cons_of_mem n hmem
          · intro h
            rcases List.mem_cons.mp h with h | h
            · subst h
              refine List.IsPrefix.isInfix ?_
              refine List.cons_prefix_cons.mpr ⟨rfl, ?_⟩
              refine (List.prefix_append_right_inj z).mpr ?_
              exact List.cons_prefix_cons.mpr ⟨rfl, List.nil_prefix⟩
            · have hin := (ih z hz hzq hzc
                (fun m hm => hns m (List.mem_cons_of_mem n hm))).mpr h
              have hsuf : innerSer (r :: rest') <:+ innerSer (n :: r :: rest') := by
                rw [innerSer_pair]
                exact ((List.suffix_cons ' ' _).trans (List.suffix_cons ',' _)).trans
                  (List.suffix_append _ _)
              have hin2 := hin.trans hsuf.isInfix
              rwa [innerSer_pair_cons, quoteName_eq_cons z] at hin2

/-- C2 counterexample: the queried zone name is interpolated into a GLOB
pattern, so a queried name containing a wildcard breaks the
membership-iff-match claim: querying zone `*` matches an event whose zone
set is `["porch"]`, yet `*` is not a member of that zone set. -/
theorem zone_filter_wildcard_counterexample :
    eventMatches { zone := some "*" } ⟨"e1", "cam", "person", ["porch"], 1, 2⟩ = true ∧
    "*" ∉ (["porch"] : List String) := by
  exact ⟨by decide, by decide⟩

/-- C2 (amended): for a queried zone name that is nonempty and free of
double quotes, commas, and GLOB wildcards (`*`, `?`; character classes
are likewise excluded by these hypotheses since the pattern then contains
no `[`), and events whose zone names are free of double quotes, the
`/events` zone filter matches iff the queried name is a true member of the
event's zone set.  In particular — because the serialization wraps each
name in double quotes — an event whose zone set contains only a zone whose
name has the queried name as a proper substring is *not* matched, contrary
to the false-positive risk the spec flags. -/
theorem zone_filter_membership_spec (z : String) (zs : List String)
    (hz : z ≠ "")
    (hchars : ∀ c ∈ z.data, c ≠ '"' ∧ c ≠ ',' ∧ c ≠ '*' ∧ c ≠ '?')
    (hns : ∀ n ∈ zs, ∀ c ∈ n.data, c ≠ '"') :
    (globMatch (zonePattern z) (serializeZones zs) = true ↔ z ∈ zs) := by
  have hlit : ∀ c ∈ quoteName z.data, c ≠ '*' ∧ c ≠ '?' := by
    intro c hc
    rw [quoteName_eq_cons] at hc
    rcases List.mem_cons.mp hc with h | h
    · subst h
      exact ⟨by decide, by decide⟩
    · rcases List.mem_append.mp h with h | h
      · exact ⟨(hchars c h).2.2.1, (hchars c h).2.2.2⟩
      · rw [List.mem_singleton] at h
        subst h
        exact ⟨by decide, by decide⟩
  have hzq : '"' ∉ z.data := fun h => (hchars '"' h).1 rfl
  have hzc : ',' ∉ z.data := fun h => (hchars ',' h).2.1 rfl
  have hns' : ∀ n ∈ zs.map String.data, '"' ∉ n := by
    intro n hn
    obtain ⟨a, ha, hd⟩ := List.mem_map.mp hn
    subst hd
    exact fun hmem => hns a ha '"' hmem rfl
  have hz' : z.data ≠ [] := by
    intro h
    exact hz (String.ext (by rw [h]))
  rw [zonePattern, globMatch_contains_iff (quoteName z.data) hlit, serializeZones]
  rw [quoteName]
  rw [infix_concat_skip '"' ']' ('"' :: z.data)
    ('[' :: innerSer (zs.map String.data)) (by decide)]
  rw [List.cons_append]
  rw [infix_cons_skip '"' '[' (z.data ++ ['"']) (innerSer (zs.map String.data)) (by decide)]
  rw [← quoteName_eq_cons]
  rw [quote_infix_innerSer_iff (zs.map String.data) z.data hz' hzq hzc hns']
  constructor
  · intro h
    obtain ⟨a, ha, hd⟩ := List.mem_map.mp h
    have haz : a = z := String.ext hd
    rwa [← haz]
  · intro h
    exact List.mem_map.mpr ⟨z, h, rfl⟩

/-- C2 witness. -/
theorem zone_filter_membership_spec_witness :
    globMatch (zonePattern "front_yard") (serializeZones ["front_yard", "porch"]) = true ↔
      "front_yard" ∈ (["front_yard", "porch"] : List String) :=
  zone_filter_membership_spec "front_yard" ["front_yard", "porch"]
    (by decide) (by decide) (by decide)

end Frigate
